import Mathlib

/-!
# Verification of the agentdeck session core

A shallow embedding, in Lean 4, of the parts of the `agentdeck` repository
that the specification's claims are about:

* `sessions/ui_state_detector.py` — the pane-text UI-state detector
  (`UIStateDetector.parse` and its helpers, including executable
  equivalents of the regular expressions used there);
* `sessions/manager.py` — scrollback delta capture (`capture_to_log`,
  `_find_overlap`), selection dispatch (`send_selection`), input dispatch
  (`send_input`), visible-pane capture (`capture_output`) and the session
  registry lifecycle (`_mark_dead`, `register_existing_session`,
  `register_dead_session`, `remove_dead_session`);
* `sessions/agent_output_log.py` — the append-only output log
  (`append`, `read`, `search`, `soft_delete`, `session_ids`).

Strings are modelled as `List Char` where character-level parsing happens
(the detector) and as `String` elsewhere; timestamps are `Nat` (only their
presence and ordering matter); SQLite rows are a `List` of chunk records.
Definitions follow the Python source line by line; definitions that follow
the specification's wording instead (for refinement comparisons) carry
`Spec` in their name and say so in their doc comment.
-/

namespace Agentdeck

/-- A single line of captured pane text (Python `str` without newlines). -/
abbrev Line := List Char

/-- Python `str.isspace` for the characters that occur in pane text
(ASCII whitespace; pane lines never contain `\n` after splitting). -/
def isSpaceChar (c : Char) : Bool :=
  c = ' ' || c = '\t' || c = '\n' || c = '\r' || c = '\x0b' || c = '\x0c'

/-- Python `str.lower`, character by character. -/
def lowerLine (l : Line) : Line := l.map Char.toLower

/-- Python `str.strip()`: drop leading and trailing whitespace. -/
def stripLine (l : Line) : Line :=
  ((l.dropWhile isSpaceChar).reverse.dropWhile isSpaceChar).reverse

/-- `not line.strip()`: the line is empty or all-whitespace. -/
def blankLine (l : Line) : Bool := stripLine l = []

/-- `line.startswith("    ")`: a 4-space-indented description line. -/
def startsFourSpaces (l : Line) : Bool :=
  match l with
  | ' ' :: ' ' :: ' ' :: ' ' :: _ => true
  | _ => false

/-- `line.endswith(("?", ":"))` on an already-stripped line. -/
def endsQuestionColon (l : Line) : Bool :=
  match l.getLast? with
  | some '?' => true
  | some ':' => true
  | _ => false

/-- Substring test: does `needle` occur contiguously inside `hay`?
(Python `needle in hay` / an unanchored regex literal.) -/
def containsSub (hay needle : List Char) : Bool :=
  if needle.isPrefixOf hay then true
  else
    match hay with
    | [] => false
    | _ :: t => containsSub t needle

/-- `raw.split("\n")` (Python semantics: splitting the empty string
yields `[""]`, and a trailing newline yields a trailing empty line). -/
def splitNl : List Char → List Line
  | [] => [[]]
  | c :: rest =>
    if c = '\n' then [] :: splitNl rest
    else
      match splitNl rest with
      | h :: t => (c :: h) :: t
      | [] => [[c]]

/-- `" ".join(question_lines)`. -/
def joinSpace : List Line → Line
  | [] => []
  | [l] => l
  | l :: rest => l ++ ' ' :: joinSpace rest

/-- Decimal digit run to a number (Python `int(...)` on a `\d+` group;
leading zeros are harmless). -/
def digitsToNat (ds : List Char) : Nat :=
  ds.foldl (fun acc c => acc * 10 + (c.toNat - 48)) 0

/-- The cursor-marker glyphs `›` and `❯` of `_ITEM_RE` / `_CHROME_RE`. -/
def isMarkerChar (c : Char) : Bool := c = '›' || c = '❯'

/-- `_ITEM_RE = ^(\s*[›❯]?\s*)(\d+)\.\s+(.+)$` as a deterministic scanner.
Returns `(number, raw label, marker present)` on a match. The only
regex backtracking that matters is in `\.\s+(.+)$` when everything after
the dot is whitespace: `\s+` then gives up its last character to `.+`. -/
def itemMatch (l : Line) : Option (Nat × Line × Bool) :=
  let r1 := l.dropWhile isSpaceChar
  let (marker, r2) :=
    match r1 with
    | c :: rest => if isMarkerChar c then (true, rest) else (false, r1)
    | [] => (false, r1)
  let r3 := r2.dropWhile isSpaceChar
  let digits := r3.takeWhile Char.isDigit
  let r4 := r3.dropWhile Char.isDigit
  if digits = [] then none
  else
    match r4 with
    | '.' :: r5 =>
      let ws3 := r5.takeWhile isSpaceChar
      let r6 := r5.dropWhile isSpaceChar
      if ws3 = [] then none
      else if r6 ≠ [] then some (digitsToNat digits, r6, marker)
      else if 2 ≤ ws3.length then
        some (digitsToNat digits, ws3.drop (ws3.length - 1), marker)
      else none
    | _ => none

/-- The horizontal-rule glyph set of `_HRULE_RE`. -/
def isRuleChar (c : Char) : Bool :=
  c = '─' || c = '╌' || c = '╍' || c = '┄' || c = '┅' ||
  c = '┈' || c = '┉' || c = '━'

/-- `_HRULE_RE = ^[\s]*[─╌╍┄┅┈┉━]{3,}[\s]*$` (full match). -/
def hruleMatch (l : Line) : Bool :=
  let core := stripLine l
  3 ≤ core.length && core.all isRuleChar

/-- Tail of `_FOOTER_RE`'s first alternative:
`(Esc to cancel|Tab to amend|↑/↓)` searched anywhere in `s`
(already lowercased by the caller). -/
def footerTail (s : List Char) : Bool :=
  containsSub s ("esc to cancel".data) ||
  containsSub s ("tab to amend".data) ||
  containsSub s ("↑/↓".data)

/-- Head alternatives of `_FOOTER_RE`:
`(Enter to (select|confirm)|Esc to cancel)` at the start of `s`, with the
tail group somewhere after the matched head (the `.*` in between). -/
def footerHeadAt (s : List Char) : Bool :=
  (List.isPrefixOf ("enter to select".data) s && footerTail (s.drop 15)) ||
  (List.isPrefixOf ("enter to confirm".data) s && footerTail (s.drop 16)) ||
  (List.isPrefixOf ("esc to cancel".data) s && footerTail (s.drop 13))

/-- Scan every start position for `footerHeadAt`. -/
def footerScan : List Char → Bool
  | [] => false
  | s@(_ :: t) => footerHeadAt s || footerScan t

/-- `_FOOTER_RE.search(line)` (IGNORECASE): either
`(Enter to (select|confirm)|Esc to cancel).*(Esc to cancel|Tab to amend|↑/↓)`
or `Press enter to continue`, anywhere in the line. -/
def footerMatch (l : Line) : Bool :=
  let low := lowerLine l
  footerScan low || containsSub low ("press enter to continue".data)

/-- Scanner for `_CHROME_RE`'s first alternative `\?\s+for\s+shortcuts`
at a given start position (lowercased input). -/
def chromeShortcutsAt (s : List Char) : Bool :=
  match s with
  | '?' :: r1 =>
    let w1 := r1.takeWhile isSpaceChar
    let r2 := r1.dropWhile isSpaceChar
    w1 ≠ [] && List.isPrefixOf ("for".data) r2 &&
      (let r3 := (r2.drop 3).dropWhile isSpaceChar
       let w2 := (r2.drop 3).takeWhile isSpaceChar
       w2 ≠ [] && List.isPrefixOf ("shortcuts".data) r3)
  | _ => false

/-- Scanner for `_CHROME_RE`'s second alternative `\d+%\s+context left`
at a given start position (lowercased input). -/
def chromeContextAt (s : List Char) : Bool :=
  match s with
  | c :: _ =>
    c.isDigit &&
      (let r1 := s.dropWhile Char.isDigit
       match r1 with
       | '%' :: r2 =>
         let w := r2.takeWhile isSpaceChar
         let r3 := r2.dropWhile isSpaceChar
         w ≠ [] && List.isPrefixOf ("context left".data) r3
       | _ => false)
  | [] => false

/-- Search a predicate over every suffix of a character list. -/
def anySuffix (p : List Char → Bool) : List Char → Bool
  | [] => false
  | s@(_ :: t) => p s || anySuffix p t

/-- `_CHROME_RE.search(line)` (IGNORECASE): any of `\? for shortcuts`,
`\d+% context left`, `shift\+tab to cycle`, or the anchored
`^\s*[›❯]\s+\S` input-cursor alternative. -/
def chromeMatch (l : Line) : Bool :=
  let low := lowerLine l
  anySuffix chromeShortcutsAt low ||
  anySuffix chromeContextAt low ||
  containsSub low ("shift+tab to cycle".data) ||
  (match (l.dropWhile isSpaceChar) with
   | c :: rest =>
     isMarkerChar c &&
       (let w := rest.takeWhile isSpaceChar
        let r := rest.dropWhile isSpaceChar
        w ≠ [] && r ≠ [])
   | [] => false)

/-- The spinner glyph alphabet `_SPINNER_CHARS = "·⏺✢✳✶✻✽"`. -/
def isSpinnerChar (c : Char) : Bool :=
  c = '·' || c = '⏺' || c = '✢' || c = '✳' || c = '✶' || c = '✻' || c = '✽'

/-- `_SPINNER_RE.match(line)`: `^\s*[·⏺✢✳✶✻✽]\s+.*…` — after the glyph
there must be at least one whitespace character, with `…` (U+2026)
anywhere after that first whitespace. -/
def spinnerMatch (l : Line) : Bool :=
  match l.dropWhile isSpaceChar with
  | c :: w :: rest => isSpinnerChar c && isSpaceChar w && rest.any (· = '…')
  | _ => false

/-- The parenthesised part of `_CODEX_WORKING_RE`:
`\(\d+s\s*•\s*esc to interrupt\)` at a given start position. -/
def codexParenAt (s : List Char) : Bool :=
  match s with
  | '(' :: r1 =>
    let ds := r1.takeWhile Char.isDigit
    let r2 := r1.dropWhile Char.isDigit
    ds ≠ [] &&
      (match r2 with
       | 's' :: r3 =>
         let r4 := r3.dropWhile isSpaceChar
         (match r4 with
          | '•' :: r5 =>
            let r6 := r5.dropWhile isSpaceChar
            List.isPrefixOf ("esc to interrupt)".data) r6
          | _ => false)
       | _ => false)
  | _ => false

/-- `_CODEX_WORKING_RE.match(line)`: `^\s*•\s+.*\(\d+s\s*•\s*esc to interrupt\)`
(case-sensitive). -/
def codexWorkingMatch (l : Line) : Bool :=
  match l.dropWhile isSpaceChar with
  | c :: w :: rest => c = '•' && isSpaceChar w && anySuffix codexParenAt rest
  | _ => false

/-- The core of `_SURVEY_RE`: `\d:\s*Good\s+0:\s*Dismiss` at a given
start position (lowercased input). -/
def surveyAt (s : List Char) : Bool :=
  match s with
  | d :: ':' :: r1 =>
    d.isDigit &&
      (let r2 := r1.dropWhile isSpaceChar
       List.isPrefixOf ("good".data) r2 &&
         (let r3 := r2.drop 4
          let w := r3.takeWhile isSpaceChar
          let r4 := r3.dropWhile isSpaceChar
          w ≠ [] &&
            (match r4 with
             | '0' :: ':' :: r5 =>
               List.isPrefixOf ("dismiss".data) (r5.dropWhile isSpaceChar)
             | _ => false)))
  | _ => false

/-- `_SURVEY_RE.search(line)` (IGNORECASE): `\d:\s*Good\s+0:\s*Dismiss`. -/
def surveyMatch (l : Line) : Bool :=
  anySuffix surveyAt (lowerLine l)

/-! ## Data model (`sessions/models.py`) -/

/-- `UIState` (`models.py`). -/
inductive UIState where
  | working
  | selection
  | prompt
  deriving DecidableEq, Repr

/-- `SelectionItem` (`models.py`): one numbered option. -/
structure SelectionItem where
  number : Nat
  label : Line
  description : Line := []
  is_freeform : Bool := false
  deriving DecidableEq, Repr

/-- `ParsedOutput` (`models.py`), with the `arrow_navigable` field the
detector constructs and the manager reads. -/
structure ParsedOutput where
  state : UIState := UIState.working
  items : List SelectionItem := []
  selected_index : Nat := 0
  arrow_navigable : Bool := false
  question : Line := []
  auto_response : Option Line := none
  deriving DecidableEq, Repr

/-- `AgentType` (`models.py` / `AGENT_REGISTRY` in `manager.py`). -/
inductive AgentType where
  | claude
  | codex
  deriving DecidableEq, Repr

/-- `SessionInfo` (`models.py`): identity and liveness of one session.
Timestamps are `Nat`; only their presence matters for the claims. -/
structure SessionInfo where
  session_id : String
  agent_type : AgentType
  working_dir : String
  is_alive : Bool := true
  ended_at : Option Nat := none
  deriving DecidableEq, Repr

/-- `SessionOutput` (`models.py`): result of a visible-pane capture. -/
structure SessionOutput where
  session_id : String
  content : String
  changed : Bool := true
  deriving DecidableEq, Repr

/-! ## UI-state detector (`sessions/ui_state_detector.py`) -/

/-- An entry of `_try_selection`'s `found` dictionary:
`found[num] = (i, label, marker)`. -/
structure FoundItem where
  lineIdx : Nat
  label : Line
  marker : Bool
  deriving DecidableEq, Repr

/-- The `found` dictionary, as an association list keyed by the parsed
item number (insertion order kept, keys unique by construction). -/
abbrev Found := List (Nat × FoundItem)

/-- `found[num] = v`: overwrite the entry if the key is present,
append it otherwise (Python dict assignment). -/
def updFound (found : Found) (k : Nat) (v : FoundItem) : Found :=
  if found.any (fun p => p.1 = k) then
    found.map (fun p => if p.1 = k then (k, v) else p)
  else
    found ++ [(k, v)]

/-- `num in found`. -/
def foundHas (found : Found) (k : Nat) : Bool :=
  found.any (fun p => p.1 = k)

/-- `found[num]` lookup. -/
def foundLookup (found : Found) (k : Nat) : Option FoundItem :=
  (found.find? (fun p => p.1 = k)).map (fun p => p.2)

/-- `max(found)`: the largest key (`0` on an empty dictionary; at its one
use site the dictionary contains the key `1`). -/
def foundMax (found : Found) : Nat :=
  found.foldl (fun m p => Nat.max m p.1) 0

/-- Phase 1 of `_try_selection`: the bottom-up item walk.  The list is the
bottom-up traversal order (reversed pane), `i` the pane index of its head,
`anchored` whether `bottom_item_idx` has been set, `prev` the
`prev_item_line` of the last recorded item.  Returns `none` for the
walk's `return None` (stale anchor), otherwise the final `found`. -/
def walkItems (n : Nat) : List Line → Nat → Bool → Option Nat → Found → Option Found
  | [], _, _, _, found => some found
  | l :: rest, i, anchored, prev, found =>
    match itemMatch l with
    | none => walkItems n rest (i - 1) anchored prev found
    | some (num, rawLabel, marker) =>
      if anchored = false ∧ i < n - 5 then none
      else
        match prev with
        | some p =>
          if p - i > 3 then some found
          else
            let found' := updFound found num ⟨i, stripLine rawLabel, marker⟩
            if num = 1 then some found'
            else walkItems n rest (i - 1) true (some i) found'
        | none =>
          let found' := updFound found num ⟨i, stripLine rawLabel, marker⟩
          if num = 1 then some found'
          else walkItems n rest (i - 1) true (some i) found'

/-- Phases 0–1 of `_try_selection`: skip footer/blank lines at the very
bottom, then walk upward collecting numbered items. -/
def collectFound (lines : List Line) : Option Found :=
  let rev := (lines.reverse).dropWhile (fun l => blankLine l || footerMatch l)
  walkItems lines.length rev (rev.length - 1) false none []

/-- `range(1, maxNum + 1)`. -/
def natRangeFrom : Nat → Nat → List Nat
  | _, 0 => []
  | s, m + 1 => s :: natRangeFrom (s + 1) m

/-- The "build consecutive item list 1..max" loop of `_try_selection`:
walks the numbers in order, failing on a gap in the numbering, and
computes `items` (paired with their line indices), `selected_index`, and
`has_marker` (the last marker seen wins). -/
def buildGo (found : Found) : List Nat → List (SelectionItem × Nat) → Nat → Bool →
    Option (List (SelectionItem × Nat) × Nat × Bool)
  | [], acc, sel, hm => some (acc.reverse, sel, hm)
  | k :: ks, acc, sel, hm =>
    match foundLookup found k with
    | none => none
    | some fi =>
      let acc' := (({ number := k, label := fi.label } : SelectionItem), fi.lineIdx) :: acc
      if fi.marker then buildGo found ks acc' (acc'.length - 1) true
      else buildGo found ks acc' sel hm

/-- Phase 2 of `_try_selection`: the description scan from one item line
to the next — break on an item or footer line, skip rules and blanks,
and space-join 4-space-indented lines.  `fuel` is the number of line
indices left to visit (`end - j` in the Python loop). -/
def descScan (lines : List Line) : Nat → Nat → Line → Line
  | 0, _, acc => acc
  | fuel + 1, j, acc =>
    let l := lines.getD j []
    if (itemMatch l).isSome ∨ footerMatch l then acc
    else if hruleMatch l ∨ blankLine l then descScan lines fuel (j + 1) acc
    else if startsFourSpaces l then
      let d := stripLine l
      descScan lines fuel (j + 1) (if acc = [] then d else acc ++ ' ' :: d)
    else descScan lines fuel (j + 1) acc

/-- Attach the phase-2 descriptions to the built items. -/
def addDescs (lines : List Line) (n : Nat) : List (SelectionItem × Nat) → List SelectionItem
  | [] => []
  | (it, li) :: rest =>
    let stop := match rest with
      | (_, li2) :: _ => li2
      | [] => n
    { it with description := descScan lines (stop - (li + 1)) (li + 1) [] }
      :: addDescs lines n rest

/-- The phase-3 question-header check of `_try_selection`: among the raw
line indices `first_idx - 1` and `first_idx - 2` (clipped at the top of
the pane), some non-blank line whose stripped text ends in `?` or `:`. -/
def codeQuestion (lines : List Line) (firstIdx : Nat) : Bool :=
  let ks : List Nat :=
    if firstIdx = 0 then []
    else if firstIdx = 1 then [0]
    else [firstIdx - 1, firstIdx - 2]
  ks.any (fun k =>
    let s := stripLine (lines.getD k [])
    s ≠ [] && endsQuestionColon s)

/-- The question-text extraction at the end of `_try_selection`: walk
upward from the first item across consecutive non-blank non-rule lines,
collecting their stripped text in original order.  The `Nat` argument is
`k + 1` for the line index `k` under consideration. -/
def questionScan (lines : List Line) : Nat → List Line → List Line
  | 0, acc => acc
  | k + 1, acc =>
    let l := lines.getD k []
    let s := stripLine l
    if s = [] ∨ hruleMatch l then acc
    else questionScan lines k (s :: acc)

/-- `_FREEFORM_HINT in item.label.lower()` marking. -/
def markFreeform (it : SelectionItem) : SelectionItem :=
  if containsSub (lowerLine it.label) ("type something".data) then
    { it with is_freeform := true }
  else it

/-- The pane index of the first (lowest-numbered) built item:
`item_lines[0]`. -/
def firstLineIdx (itemsL : List (SelectionItem × Nat)) : Nat :=
  match itemsL with
  | (_, li) :: _ => li
  | [] => 0

/-- `UIStateDetector._try_selection`. -/
def trySelection (lines : List Line) : Option ParsedOutput :=
  if lines.length = 0 then none
  else
    match collectFound lines with
    | none => none
    | some found =>
      if foundHas found 1 = false ∨ found.length < 2 then none
      else
        match buildGo found (natRangeFrom 1 (foundMax found)) [] 0 false with
        | none => none
        | some (itemsL, sel, hasMarker) =>
          let items2 := addDescs lines lines.length itemsL
          let hasFooter := lines.any footerMatch
          let fi := firstLineIdx itemsL
          if hasFooter = false ∧ codeQuestion lines fi = false then none
          else
            some { state := UIState.selection
                   items := items2.map markFreeform
                   selected_index := if hasMarker then sel else 0
                   arrow_navigable := hasMarker
                   question := joinSpace (questionScan lines fi []) }

/-- `UIStateDetector._try_working`: quality survey, then spinner /
Codex working line, over the last 5 content lines. -/
def tryWorking (lines : List Line) : Option ParsedOutput :=
  let tail := lines.drop (lines.length - 5)
  if tail.any surveyMatch then
    some { state := UIState.working, auto_response := some ['0'] }
  else if tail.any (fun l => spinnerMatch l || codexWorkingMatch l) then
    some { state := UIState.working }
  else none

/-- The preprocessing of `parse`: strip trailing blank and chrome lines. -/
def stripTailChrome (lines : List Line) : List Line :=
  ((lines.reverse).dropWhile (fun l => blankLine l || chromeMatch l)).reverse

/-- `UIStateDetector.parse` on pre-split lines. -/
def parseLines (lines0 : List Line) : ParsedOutput :=
  let lines := stripTailChrome lines0
  match tryWorking lines with
  | some p => p
  | none =>
    match trySelection lines with
    | some p => p
    | none => { state := UIState.prompt }

/-- `UIStateDetector.parse` on a raw captured string. -/
def parse (raw : String) : ParsedOutput :=
  parseLines (splitNl raw.data)

/-! ## Output log (`sessions/agent_output_log.py`)

The SQLite table `chunks(id, session_id, ts, content, archived)` is a list
of records; `id` is the AUTOINCREMENT counter.  FTS5 match and rank are
outside the program: `search` takes the match predicate as a parameter
and returns candidates in table order (rank ordering cannot reorder an
empty result set, which is all the claims need). -/

/-- One row of the `chunks` table. -/
structure LogChunk where
  id : Nat
  session_id : String
  ts : Nat
  content : String
  archived : Bool := false
  deriving DecidableEq, Repr

/-- The persistent state of `AgentOutputLog`. -/
structure LogState where
  chunks : List LogChunk := []
  nextId : Nat := 0
  deriving DecidableEq, Repr

/-- `HistoryPage` (`agent_output_log.py`). -/
structure HistoryPage where
  chunks : List LogChunk := []
  earliest_ts : Option Nat := none
  deriving DecidableEq, Repr

/-- `"\n".join(lines)`. -/
def joinNl : List String → String
  | [] => ""
  | [s] => s
  | s :: rest => s ++ "\n" ++ joinNl rest

namespace AgentOutputLog

/-- `AgentOutputLog.append`: no-op on an empty list, otherwise insert one
chunk whose content is the newline-join of the lines. -/
def append (log : LogState) (session_id : String) (t : Nat) (lines : List String) : LogState :=
  if lines = [] then log
  else
    { chunks := log.chunks ++ [{ id := log.nextId, session_id := session_id,
                                 ts := t, content := joinNl lines }]
      nextId := log.nextId + 1 }

/-- Insert into a ts-descending list (the `ORDER BY ts DESC` of `read`). -/
def insertTsDesc (c : LogChunk) : List LogChunk → List LogChunk
  | [] => [c]
  | d :: ds => if d.ts < c.ts then c :: d :: ds else d :: insertTsDesc c ds

/-- Sort newest-first by timestamp. -/
def sortTsDesc (l : List LogChunk) : List LogChunk :=
  l.foldr insertTsDesc []

/-- `AgentOutputLog.read`: newest `limit` non-archived chunks of the
session (with `ts < before` when given), returned oldest-first, with
`earliest_ts` the first returned chunk's timestamp. -/
def read (log : LogState) (session_id : String) (before : Option Nat) (limit : Nat) :
    HistoryPage :=
  let rows := log.chunks.filter (fun c =>
    c.session_id = session_id && c.archived = false &&
      (match before with
       | some b => c.ts < b
       | none => true))
  let page := ((sortTsDesc rows).take limit).reverse
  { chunks := page, earliest_ts := page.head?.map (fun c => c.ts) }

/-- `AgentOutputLog.search`: non-archived chunks whose content the FTS5
query matches (`matchQ` stands for SQLite's `MATCH`), optionally scoped
to one session, truncated to `limit`. -/
def search (log : LogState) (matchQ : String → Bool) (session_id : Option String)
    (limit : Nat) : List LogChunk :=
  (log.chunks.filter (fun c =>
    matchQ c.content && c.archived = false &&
      (match session_id with
       | some sid => c.session_id = sid
       | none => true))).take limit

/-- `AgentOutputLog.soft_delete`: mark every chunk of the session archived. -/
def soft_delete (log : LogState) (session_id : String) : LogState :=
  { log with chunks := log.chunks.map (fun c =>
      if c.session_id = session_id then { c with archived := true } else c) }

/-- Order-preserving first-occurrence deduplication (`SELECT DISTINCT`). -/
def dedup : List String → List String → List String
  | [], _ => []
  | x :: xs, seen => if x ∈ seen then dedup xs seen else x :: dedup xs (x :: seen)

/-- `AgentOutputLog.session_ids`: distinct ids with a non-archived chunk. -/
def session_ids (log : LogState) : List String :=
  dedup ((log.chunks.filter (fun c => c.archived = false)).map (fun c => c.session_id)) []

/-- `AgentOutputLog.latest_ts`: `MAX(ts)` over all chunks of the session. -/
def latest_ts (log : LogState) (session_id : String) : Option Nat :=
  (log.chunks.filter (fun c => c.session_id = session_id)).foldl
    (fun acc c => match acc with
      | none => some c.ts
      | some m => some (Nat.max m c.ts)) none

end AgentOutputLog

/-! ## Session manager (`sessions/manager.py`) -/

/-- One `tmux.send_keys(keys, enter, literal)` call issued by the manager. -/
structure KeyEvent where
  keys : String
  enter : Bool := false
  literal : Bool := false
  deriving DecidableEq, Repr

/-- Error kinds the manager surfaces (`KeyError` / `ValueError` in the
source, mapped by the HTTP shim). -/
inductive MgrError where
  | notFound
  | conflict
  deriving DecidableEq, Repr

/-- The HTTP mapping of `api/sessions.py`: `KeyError → 404`,
`ValueError → 409`. -/
def httpStatus : MgrError → Nat
  | MgrError.notFound => 404
  | MgrError.conflict => 409

namespace SessionManager

/-- Association-list lookup for the manager's per-session dictionaries. -/
def lookupBy {α : Type} : List (String × α) → String → Option α
  | [], _ => none
  | (k, v) :: rest, sid => if k = sid then some v else lookupBy rest sid

/-- `self._sessions[sid] = info` (Python dict assignment). -/
def putEntry {α : Type} (m : List (String × α)) (sid : String) (v : α) :
    List (String × α) :=
  if m.any (fun p => p.1 = sid) then
    m.map (fun p => if p.1 = sid then (sid, v) else p)
  else m ++ [(sid, v)]

/-- `SessionManager._require_session` followed by the alive check of
`_require_alive_session`. -/
def requireAlive (sessions : List (String × SessionInfo)) (sid : String) :
    Except MgrError SessionInfo :=
  match lookupBy sessions sid with
  | none => Except.error MgrError.notFound
  | some info =>
    if info.is_alive then Except.ok info else Except.error MgrError.conflict

/-- `SessionManager.send_input`: require an alive session, then either a
shortcut expansion (one `send_keys` with the table's enter flag) or the
two-step literal send (`text` literally, then a separate `Enter`).
`expand` is the session agent's `expand_shortcut`. -/
def send_input (sessions : List (String × SessionInfo)) (sid text : String)
    (expand : String → Option (String × Bool)) : Except MgrError (List KeyEvent) :=
  match requireAlive sessions sid with
  | Except.error e => Except.error e
  | Except.ok _ =>
    Except.ok (match expand text with
      | some (keys, enter) => [{ keys := keys, enter := enter }]
      | none => [{ keys := text, literal := true }, { keys := "Enter" }])

/-- `SessionManager.capture_output`: capture the pane, diff against the
stored previous value (defaulting to the empty string), store, return. -/
def capture_output (sessions : List (String × SessionInfo))
    (lastOutput : List (String × String)) (sid content : String) :
    Except MgrError (SessionOutput × List (String × String)) :=
  match lookupBy sessions sid with
  | none => Except.error MgrError.notFound
  | some _ =>
    let previous := (lookupBy lastOutput sid).getD ""
    Except.ok ({ session_id := sid, content := content, changed := content ≠ previous },
               putEntry lastOutput sid content)

/-- The index of the first item whose `number` equals `item_number`
(the `enumerate` loop of `send_selection`). -/
def findTarget : List SelectionItem → Nat → Nat → Option Nat
  | [], _, _ => none
  | it :: rest, n, i => if it.number = n then some i else findTarget rest n (i + 1)

/-- `SessionManager.send_selection`, as the sequence of `send_keys` calls
it issues (delays elided; they separate the events but carry no data).
`none` models the `ValueError` for an unknown item number. -/
def send_selection (parsed : ParsedOutput) (item_number : Nat)
    (freeform_text : Option String) : Option (List KeyEvent) :=
  match findTarget parsed.items item_number 0 with
  | none => none
  | some target =>
    let base :=
      if parsed.arrow_navigable then
        let delta : Int := (target : Int) - (parsed.selected_index : Int)
        let key := if delta > 0 then "Down" else "Up"
        (List.replicate delta.natAbs ({ keys := key } : KeyEvent)) ++ [{ keys := "Enter" }]
      else
        [{ keys := toString item_number, literal := true }, { keys := "Enter" }]
    some (base ++
      match freeform_text with
      | some t => if t = "" then [] else [{ keys := t, enter := true, literal := true }]
      | none => [])

/-- The per-session scrollback-capture runtime of `capture_to_log`:
`_last_tail[sid]` and `_last_history_size[sid]`. -/
structure CaptureState where
  lastTail : Option (List String) := none
  lastHist : Option Nat := none
  deriving DecidableEq, Repr

/-- `SessionManager._find_overlap`: fingerprint the last
`min(5, len(previous))` lines of the previous capture and scan the
current capture for them.  `some r` is the Python return `i + fp_size`;
`none` is the Python `-1`. -/
def scanFp (fp : List String) : List String → Nat → Option Nat
  | [], _ => none
  | c :: t, i => if fp.isPrefixOf (c :: t) then some i else scanFp fp t (i + 1)

/-- `_FINGERPRINT_SIZE`. -/
def FINGERPRINT_SIZE : Nat := 5

/-- `SessionManager._find_overlap`. -/
def find_overlap (previous current : List String) : Option Nat :=
  let fpSize := Nat.min FINGERPRINT_SIZE previous.length
  if fpSize = 0 then some 0
  else
    let fp := previous.drop (previous.length - fpSize)
    (scanFp fp current 0).map (fun i => i + fpSize)

/-- One alive-session tick of `SessionManager.capture_to_log`, after the
`is_process_dead` check: decide which lines are new and update the
runtime.  Returns the lines this tick appends (possibly `[]`) and the new
runtime state.  `histSize` is `tmux.get_history_size`, `lines` the
captured scrollback+visible vector. -/
def capture_to_log_step (st : CaptureState) (histSize : Nat) (lines : List String) :
    List String × CaptureState :=
  if st.lastHist = some histSize then ([], st)
  else
    let scrollback := lines.take histSize
    if scrollback = [] then ([], { st with lastHist := some histSize })
    else
      let newLines :=
        match st.lastTail with
        | none => scrollback
        | some prev =>
          match find_overlap prev scrollback with
          | some idx => scrollback.drop idx
          | none => scrollback
      (newLines, { lastTail := some scrollback, lastHist := some histSize })

/-- A full capture tick for one session against the output log: run the
delta step and append the new lines (the `if new_lines:` guard). -/
def capture_tick (st : CaptureState) (log : LogState) (sid : String) (t : Nat)
    (histSize : Nat) (lines : List String) : CaptureState × LogState :=
  let (nl, st') := capture_to_log_step st histSize lines
  (st', if nl = [] then log else AgentOutputLog.append log sid t nl)

/-- `SessionManager._mark_dead`: flip `is_alive` and set `ended_at`,
only when the session is present and currently alive. -/
def mark_dead (sessions : List (String × SessionInfo)) (sid : String) (t : Nat) :
    List (String × SessionInfo) :=
  sessions.map (fun p =>
    if p.1 = sid ∧ p.2.is_alive then
      (p.1, { p.2 with is_alive := false, ended_at := some t })
    else p)

/-- The registry-mutating orchestrator operations of `SessionManager`.
Wall-clock reads (`time.time()`) are the `Nat` arguments. -/
inductive SessionOp where
  /-- `create_session` (after `_build_session_id` chose the id). -/
  | create (sid working_dir : String) (agent : AgentType)
  /-- `kill_session`. -/
  | kill (sid : String) (t : Nat)
  /-- the per-session liveness re-check of `list_sessions` / `get_session`,
  with the backend's `is_alive` answer. -/
  | recheck (sid : String) (backendAlive : Bool) (t : Nat)
  /-- the process-death path of `capture_to_log` (`_capture_final`). -/
  | captureDead (sid : String) (t : Nat)
  /-- `register_existing_session`. -/
  | registerExisting (sid working_dir : String) (agent : AgentType)
  /-- `register_dead_session`. -/
  | registerDead (sid working_dir : String) (agent : AgentType) (ended : Option Nat)
  /-- `remove_dead_session`. -/
  | removeDead (sid : String)
  deriving DecidableEq, Repr

/-- The effect of one orchestrator operation on the session registry.
Operations that raise in the source (unknown id, killing an alive
session from `remove_dead_session`) leave the registry unchanged. -/
def stepOp (sessions : List (String × SessionInfo)) : SessionOp →
    List (String × SessionInfo)
  | SessionOp.create sid wd agent =>
    putEntry sessions sid { session_id := sid, agent_type := agent, working_dir := wd }
  | SessionOp.kill sid t =>
    match lookupBy sessions sid with
    | none => sessions
    | some _ => mark_dead sessions sid t
  | SessionOp.recheck sid backendAlive t =>
    match lookupBy sessions sid with
    | none => sessions
    | some info =>
      if info.is_alive ∧ backendAlive = false then mark_dead sessions sid t
      else sessions
  | SessionOp.captureDead sid t => mark_dead sessions sid t
  | SessionOp.registerExisting sid wd agent =>
    putEntry sessions sid { session_id := sid, agent_type := agent, working_dir := wd }
  | SessionOp.registerDead sid wd agent ended =>
    putEntry sessions sid
      { session_id := sid, agent_type := agent, working_dir := wd,
        is_alive := false, ended_at := ended }
  | SessionOp.removeDead sid =>
    match lookupBy sessions sid with
    | none => sessions
    | some info =>
      if info.is_alive then sessions
      else sessions.filter (fun p => p.1 ≠ sid)

/-- The liveness invariant of the specification's data model:
a dead session has `ended_at` set, an alive one does not. -/
def LivenessInv (sessions : List (String × SessionInfo)) : Prop :=
  ∀ p ∈ sessions, (p.2.is_alive = false → p.2.ended_at ≠ none) ∧
    (p.2.is_alive = true → p.2.ended_at = none)

/-- "`is_alive` never flips back": the session id is dead (or absent). -/
def deadOrGone (sessions : List (String × SessionInfo)) (sid : String) : Prop :=
  ∀ info, lookupBy sessions sid = some info → info.is_alive = false

/-- Side conditions under which the registry operations keep the
specification's invariants: registrations only introduce ids not already
in the registry (as `_build_session_id`'s collision loop and the
startup-rehydration flow guarantee), and `register_dead_session` is given
a non-null `ended_at` (as its only caller does). -/
def WfOp (sessions : List (String × SessionInfo)) : SessionOp → Prop
  | SessionOp.create sid _ _ => lookupBy sessions sid = none
  | SessionOp.registerExisting sid _ _ => lookupBy sessions sid = none
  | SessionOp.registerDead sid _ _ ended =>
    lookupBy sessions sid = none ∧ ended ≠ none
  | _ => True

end SessionManager

/-! ## Definitions written from the specification's wording

These follow the claims' words rather than the Python source; each is
used only to be compared against (or combined with) the source-derived
definitions above. -/

/-- Modelled from the spec (claim C1): "find the smallest `i` such that
`current[i..i+K] == prev[-K:]`; new lines are `current[i+K..]`.  If the
fingerprint is not found anywhere, conservatively treat the entire
current slice as new"; on a first observation the entire slice is new. -/
def newLinesSpec (prevTail : Option (List String)) (current : List String) :
    List String :=
  match prevTail with
  | none => current
  | some prev =>
    let K := Nat.min 5 prev.length
    let fp := prev.drop (prev.length - K)
    match (List.range (current.length + 1)).find?
        (fun i => (current.drop i).take K = fp) with
    | some i => current.drop (i + K)
    | none => current

/-- Modelled from the spec (claims C5/C6 context): the bottom-up walk of
the selection parser with an explicit gap budget, parameterised by which
intervening lines count against it.  `gapCount` is the number of counted
lines strictly between the previously recorded item and the current
position; an item terminates the walk when that effective distance
`gapCount + 1` exceeds 3. -/
def walkItemsGap (countsGap : Line → Bool) (n : Nat) :
    List Line → Nat → Bool → Option Nat → Found → Option Found
  | [], _, _, _, found => some found
  | l :: rest, i, anchored, prevCount, found =>
    match itemMatch l with
    | none =>
      walkItemsGap countsGap n rest (i - 1) anchored
        (prevCount.map (fun c => if countsGap l then c + 1 else c)) found
    | some (num, rawLabel, marker) =>
      if anchored = false ∧ i < n - 5 then none
      else
        match prevCount with
        | some c =>
          if c + 1 > 3 then some found
          else
            let found' := updFound found num ⟨i, stripLine rawLabel, marker⟩
            if num = 1 then some found'
            else walkItemsGap countsGap n rest (i - 1) true (some 0) found'
        | none =>
          let found' := updFound found num ⟨i, stripLine rawLabel, marker⟩
          if num = 1 then some found'
          else walkItemsGap countsGap n rest (i - 1) true (some 0) found'

/-- The spec-worded phases 0–1 with a parameterised gap budget. -/
def collectFoundGap (countsGap : Line → Bool) (lines : List Line) : Option Found :=
  let rev := (lines.reverse).dropWhile (fun l => blankLine l || footerMatch l)
  walkItemsGap countsGap lines.length rev (rev.length - 1) false none []

/-- Modelled from the spec (claim C5): blank lines, horizontal rules,
footer lines and 4-space-indented description lines do not count against
the 3-line gap budget. -/
def specGapCounts (l : Line) : Bool :=
  !(blankLine l || hruleMatch l || footerMatch l || startsFourSpaces l)

/-- Modelled from the spec (claim C6): "within the 2 non-blank lines
immediately above the first item there is a line ending in `?` or `:`". -/
def claimQuestion (lines : List Line) (firstIdx : Nat) : Bool :=
  let above := ((List.range firstIdx).reverse).map (fun k => lines.getD k [])
  ((above.filter (fun l => !(blankLine l))).take 2).any
    (fun l => endsQuestionColon (stripLine l))

/-- The pane line index of collected item number 1 (the `item_lines[0]`
of the source), extracted for stating claims about the question gate. -/
def firstItemIdx (lines : List Line) : Option Nat :=
  (collectFound lines).bind (fun F => (foundLookup F 1).map (fun fi => fi.lineIdx))

/-! ## Concrete panes and scenarios used by the claims -/

/-- The arrow-navigable pane of the spec's scenario 2 (claim C2):
items 1/2/3, `❯` on item 1, footer present. -/
def paneArrow : String :=
  "Do you want to proceed?\n❯ 1. Yes\n  2. No\n  3. Maybe\nEnter to select · ↑/↓ to navigate · Esc to cancel"

/-- A pane with a single numbered item plus a selection footer (claim C3's
"in particular" case). -/
def paneSingleItem : String :=
  "  1. Only one option\nEnter to select · ↑/↓ to navigate · Esc to cancel\n"

/-- A pane whose bottom-up walk also collects an item numbered `0`
(claim C3's counterexample input). -/
def paneZeroItem : String :=
  "Choose:\n1. first\n0. zero\nEnter to select · ↑/↓ to navigate"

/-- A pane whose two numbered items are separated by three blank lines —
a raw gap of 4 but an effective (spec-counted) gap of 0 (claim C5's
counterexample input). -/
def paneBlankGap : String :=
  "Pick one:\n1. a\n\n\n\n2. b\nEnter to select · ↑/↓ to navigate"

/-- A selection pane used to witness claims C3 and C6. -/
def paneTwoItems : String :=
  "Continue?\n❯ 1. Yes\n  2. No\nEnter to select · ↑/↓ to navigate · Esc to cancel"

/-- The spec's concrete delta-capture scenario, tick 1:
history size 2, scrollback+visible `["l1","l2","vis"]`. -/
def deltaScenario1 : SessionManager.CaptureState × LogState :=
  SessionManager.capture_tick {} {} "s" 1 2 ["l1", "l2", "vis"]

/-- Tick 2: unchanged history size. -/
def deltaScenario2 : SessionManager.CaptureState × LogState :=
  SessionManager.capture_tick deltaScenario1.1 deltaScenario1.2 "s" 2 2 ["l1", "l2", "vis"]

/-- Tick 3: history size 4, two new scrollback lines. -/
def deltaScenario3 : SessionManager.CaptureState × LogState :=
  SessionManager.capture_tick deltaScenario2.1 deltaScenario2.2 "s" 3 4
    ["l1", "l2", "l3", "l4", "vis"]

/-- The value-level effect of `_mark_dead` on one registry entry. -/
def markDeadInfo (sid : String) (t : Nat) (k : String) (info : SessionInfo) : SessionInfo :=
  if k = sid ∧ info.is_alive then { info with is_alive := false, ended_at := some t }
  else info

/-- The output-log operations that can interleave after a soft delete. -/
inductive LogOp where
  | append (sid : String) (t : Nat) (lines : List String)
  | softDelete (sid : String)
  deriving DecidableEq, Repr

/-- Apply one log operation. -/
def applyLogOp (log : LogState) : LogOp → LogState
  | LogOp.append sid t lines => AgentOutputLog.append log sid t lines
  | LogOp.softDelete sid => AgentOutputLog.soft_delete log sid

/-- Apply a sequence of log operations. -/
def applyLogOps (log : LogState) (ops : List LogOp) : LogState :=
  ops.foldl applyLogOp log

/-- Every chunk of session `s` is archived. -/
def allArchived (log : LogState) (s : String) : Prop :=
  ∀ c ∈ log.chunks, c.session_id = s → c.archived = true

/-- A small output log with data for two sessions (claim C8's witness). -/
def c8Log : LogState :=
  AgentOutputLog.append (AgentOutputLog.append {} "s" 1 ["hello"]) "u" 2 ["world"]

/-- A dead registry entry (claim C9's witness). -/
def c9DeadInfo : SessionInfo :=
  { session_id := "agent-claude-dead", agent_type := AgentType.claude,
    working_dir := "/w", is_alive := false, ended_at := some 5 }

/-- An alive registry entry (claim C9's witness). -/
def c9LiveInfo : SessionInfo :=
  { session_id := "agent-claude-live", agent_type := AgentType.claude,
    working_dir := "/w" }

/-- A registry with one dead and one alive session (claim C9's witness). -/
def c9Registry : List (String × SessionInfo) :=
  [("agent-claude-dead", c9DeadInfo), ("agent-claude-live", c9LiveInfo)]

/-! ## Generic helper lemmas -/

theorem lookupBy_eq_none {α : Type} (m : List (String × α)) (sid : String) :
    SessionManager.lookupBy m sid = none ↔ ∀ p ∈ m, p.1 ≠ sid := by
  induction m with
  | nil => simp [SessionManager.lookupBy]
  | cons hd tl ih =>
    obtain ⟨k, v⟩ := hd
    by_cases hk : k = sid <;> simp [SessionManager.lookupBy, hk, ih]

theorem lookupBy_append_of_some {α : Type} (m l : List (String × α)) (sid : String)
    (v : α) (h : SessionManager.lookupBy m sid = some v) :
    SessionManager.lookupBy (m ++ l) sid = some v := by
  induction m with
  | nil => simp [SessionManager.lookupBy] at h
  | cons hd tl ih =>
    obtain ⟨k, w⟩ := hd
    by_cases hk : k = sid <;>
      simp_all [SessionManager.lookupBy, hk]

theorem scanFp_shift (fp : List String) (cur : List String) (j : Nat) :
    SessionManager.scanFp fp cur j =
      (SessionManager.scanFp fp cur 0).map (fun i => i + j) := by
  induction cur generalizing j with
  | nil => simp [SessionManager.scanFp]
  | cons c t ih =>
    by_cases hp : fp.isPrefixOf (c :: t)
    · simp [SessionManager.scanFp, hp]
    · rw [SessionManager.scanFp, SessionManager.scanFp, if_neg hp, if_neg hp,
        ih, ih 1, Option.map_map]
      congr 1
      funext i
      simp [Function.comp]
      omega

theorem scanFp_eq_rangeFind (fp : List String) (hfp : fp ≠ []) :
    ∀ cur : List String,
      SessionManager.scanFp fp cur 0 =
        (List.range (cur.length + 1)).find?
          (fun i => (cur.drop i).take fp.length = fp) := by
  intro cur
  induction cur with
  | nil =>
    simp [SessionManager.scanFp, List.range_succ_eq_map, hfp, Ne.symm hfp]
  | cons c t ih =>
    rw [SessionManager.scanFp]
    have hdef : (List.range (t.length + 1 + 1)) =
        0 :: (List.range (t.length + 1)).map Nat.succ := List.range_succ_eq_map _
    by_cases hp : fp.isPrefixOf (c :: t)
    · have htake : ((c :: t).take fp.length = fp) := by
        have := (List.isPrefixOf_iff_prefix.mp hp)
        exact (List.prefix_iff_eq_take.mp this).symm
      simp [hp, List.length_cons, hdef, List.find?_cons, htake]
    · have htake : ¬ ((c :: t).take fp.length = fp) := by
        intro hc
        exact hp (List.isPrefixOf_iff_prefix.mpr (List.prefix_iff_eq_take.mpr hc.symm))
      rw [if_neg hp, scanFp_shift, ih, List.length_cons, hdef]
      rw [List.find?_cons_of_neg _ (by simpa using htake), List.find?_map]
      congr 1

theorem find_overlap_newLines (prev cur : List String) :
    (match SessionManager.find_overlap prev cur with
     | some idx => cur.drop idx
     | none => cur) = newLinesSpec (some prev) cur := by
  simp only [newLinesSpec, SessionManager.find_overlap, SessionManager.FINGERPRINT_SIZE]
  by_cases hp : prev = []
  · subst hp
    simp only [List.length_nil, Nat.min_zero, List.drop_nil, Nat.sub_zero, if_pos rfl]
    rw [List.range_succ_eq_map]
    simp
  · have hlen : 1 ≤ prev.length := by
      cases prev with
      | nil => exact absurd rfl hp
      | cons a b => simp
    have hfp1 : 1 ≤ Nat.min 5 prev.length := Nat.le_min.mpr ⟨by decide, hlen⟩
    have hfp0 : ¬ (Nat.min 5 prev.length = 0) := by omega
    rw [if_neg hfp0]
    have hKle : Nat.min 5 prev.length ≤ prev.length := Nat.min_le_right _ _
    have hfplen : (prev.drop (prev.length - Nat.min 5 prev.length)).length
        = Nat.min 5 prev.length := by
      rw [List.length_drop]
      omega
    have hfpne : prev.drop (prev.length - Nat.min 5 prev.length) ≠ [] := by
      intro hc
      rw [hc] at hfplen
      simp at hfplen
      omega
    rw [scanFp_eq_rangeFind _ hfpne cur, hfplen]
    cases hfind : (List.range (cur.length + 1)).find?
        (fun i => (cur.drop i).take (Nat.min 5 prev.length)
          = prev.drop (prev.length - Nat.min 5 prev.length)) with
    | none => simp [hfind]
    | some i => simp [hfind]

theorem newLinesSpec_nil (p : Option (List String)) : newLinesSpec p [] = [] := by
  cases p with
  | none => rfl
  | some prev =>
    simp only [newLinesSpec]
    split <;> simp

/-! ## Claim theorems -/

/-- C1. Scrollback delta capture: on a tick whose observed history size
equals the stored `last_history_size` nothing is appended; otherwise the
appended lines are exactly the spec's overlap formula (`newLinesSpec`):
all of the current slice on first observation or when the fingerprint is
absent, else `current[i+K..]` for the smallest fingerprint match `i`.
The spec's 2→2→4 scenario appends the chunk `"l1\nl2"`, then nothing,
then the chunk `"l3\nl4"`. -/
theorem C1_scrollback_delta_capture :
    (∀ (st : SessionManager.CaptureState) (histSize : Nat) (lines : List String),
      (st.lastHist = some histSize →
        (SessionManager.capture_to_log_step st histSize lines).1 = []) ∧
      (st.lastHist ≠ some histSize →
        (SessionManager.capture_to_log_step st histSize lines).1 =
          newLinesSpec st.lastTail (lines.take histSize))) ∧
    deltaScenario1.2.chunks.map (fun c => c.content) = ["l1\nl2"] ∧
    deltaScenario2.2.chunks.map (fun c => c.content) = ["l1\nl2"] ∧
    deltaScenario3.2.chunks.map (fun c => c.content) = ["l1\nl2", "l3\nl4"] := by
  refine ⟨?_, by decide, by decide, by decide⟩
  intro st histSize lines
  constructor
  · intro h
    simp [SessionManager.capture_to_log_step, h]
  · intro h
    rw [SessionManager.capture_to_log_step, if_neg h]
    by_cases hsb : lines.take histSize = []
    · rw [hsb]
      simp [newLinesSpec_nil]
    · rw [if_neg hsb]
      cases ht : st.lastTail with
      | none => simp [newLinesSpec]
      | some prev =>
        simpa using find_overlap_newLines prev (lines.take histSize)

/-- Witness for C1: the delta formula instantiated on tick 1's inputs. -/
theorem C1_scrollback_delta_capture_witness :
    (SessionManager.capture_to_log_step {} 2 ["l1", "l2", "vis"]).1 =
      newLinesSpec none (["l1", "l2", "vis"].take 2) :=
  (C1_scrollback_delta_capture.1 {} 2 ["l1", "l2", "vis"]).2 (by decide)

open SessionManager AgentOutputLog

/-- C7 counterexample: `append` with the non-empty list `[""]` inserts a
chunk whose content is the empty string, refuting "every chunk ever
inserted has non-empty content". -/
theorem C7_counterexample_empty_content :
    ((AgentOutputLog.append {} "s" 0 [""]).chunks.map (fun c => c.content)) = [""] ∧
    ((AgentOutputLog.append {} "s" 0 [""]).chunks.length = 1) := by
  constructor <;> decide

/-- C7 (amended). `append(session_id, lines)` inserts no chunk when
`lines` is empty and otherwise exactly one chunk whose content is
`join(lines, "\n")`; that content is non-empty except in the single
degenerate case `lines = [""]`. -/
theorem C7_output_log_append :
    ∀ (log : LogState) (sid : String) (t : Nat) (lines : List String),
      (lines = [] → AgentOutputLog.append log sid t lines = log) ∧
      (lines ≠ [] → (AgentOutputLog.append log sid t lines).chunks =
        log.chunks ++ [{ id := log.nextId, session_id := sid, ts := t,
                         content := joinNl lines }]) ∧
      (lines ≠ [] → (joinNl lines = "" ↔ lines = [""])) := by
  intro log sid t lines
  refine ⟨fun h => by simp [AgentOutputLog.append, h], fun h => ?_, fun h => ?_⟩
  · rw [AgentOutputLog.append, if_neg h]
  · cases lines with
    | nil => exact absurd rfl h
    | cons a rest =>
      cases rest with
      | nil => simp [joinNl]
      | cons b t2 =>
        have hne : joinNl (a :: b :: t2) ≠ "" := by
          rw [show joinNl (a :: b :: t2) = a ++ "\n" ++ joinNl (b :: t2) from rfl]
          intro hc
          have : (a ++ "\n" ++ joinNl (b :: t2)).data = ("" : String).data := by rw [hc]
          simp [String.data_append] at this
        simp [hne]

theorem C7_output_log_append_witness :
    joinNl ["hello"] = "" ↔ (["hello"] : List String) = [""] :=
  (C7_output_log_append {} "s" 0 ["hello"]).2.2 (by decide)

/-- C9. `send_input` fails with not-found (HTTP 404) for an unknown
session id, with conflict (HTTP 409) for a registered dead session, and
issues keystrokes only when the session is alive. -/
theorem C9_send_input_errors :
    ∀ (sessions : List (String × SessionInfo)) (sid text : String)
      (expand : String → Option (String × Bool)),
      (SessionManager.lookupBy sessions sid = none →
        SessionManager.send_input sessions sid text expand =
          Except.error MgrError.notFound ∧ httpStatus MgrError.notFound = 404) ∧
      (∀ info, SessionManager.lookupBy sessions sid = some info →
        info.is_alive = false →
        SessionManager.send_input sessions sid text expand =
          Except.error MgrError.conflict ∧ httpStatus MgrError.conflict = 409) ∧
      (∀ info, SessionManager.lookupBy sessions sid = some info →
        info.is_alive = true →
        ∃ evs, SessionManager.send_input sessions sid text expand = Except.ok evs) := by
  intro sessions sid text expand
  refine ⟨fun h => ?_, fun info h ha => ?_, fun info h ha => ?_⟩
  · simp [SessionManager.send_input, SessionManager.requireAlive, h, httpStatus]
  · simp [SessionManager.send_input, SessionManager.requireAlive, h, ha, httpStatus]
  · refine ⟨(match expand text with
      | some (keys, enter) => [{ keys := keys, enter := enter }]
      | none => [{ keys := text, literal := true }, { keys := "Enter" }]), ?_⟩
    simp [SessionManager.send_input, SessionManager.requireAlive, h, ha]

theorem C9_send_input_errors_witness :
    (SessionManager.send_input c9Registry "ghost" "hi" (fun _ => none) =
      Except.error MgrError.notFound) ∧
    (SessionManager.send_input c9Registry "agent-claude-dead" "hi" (fun _ => none) =
      Except.error MgrError.conflict) ∧
    (∃ evs, SessionManager.send_input c9Registry "agent-claude-live" "hi" (fun _ => none) =
      Except.ok evs) :=
  ⟨((C9_send_input_errors c9Registry "ghost" "hi" (fun _ => none)).1 (by decide)).1,
   ((C9_send_input_errors c9Registry "agent-claude-dead" "hi" (fun _ => none)).2.1
      c9DeadInfo (by decide) (by decide)).1,
   (C9_send_input_errors c9Registry "agent-claude-live" "hi" (fun _ => none)).2.2
      c9LiveInfo (by decide) (by decide)⟩

/-- C10. On the first `capture_output` call for a registered session the
stored previous pane defaults to the empty string, so the `changed` flag
is true exactly when the captured content is non-empty. -/
theorem C10_first_capture_changed :
    ∀ (sessions : List (String × SessionInfo)) (lastOutput : List (String × String))
      (sid content : String) (out : SessionOutput) (st' : List (String × String)),
      SessionManager.lookupBy lastOutput sid = none →
      SessionManager.capture_output sessions lastOutput sid content =
        Except.ok (out, st') →
      (out.changed = true ↔ content ≠ "") := by
  intro sessions lastOutput sid content out st' hfirst hok
  rw [SessionManager.capture_output] at hok
  cases hs : SessionManager.lookupBy sessions sid with
  | none => rw [hs] at hok; exact absurd hok (by simp)
  | some info =>
    rw [hs, hfirst] at hok
    simp only [Option.getD_none] at hok
    injection hok with hpair
    injection hpair with hout hst
    rw [← hout]
    simp

theorem C10_first_capture_changed_witness :
    ((({ session_id := "agent-claude-live", content := "hello", changed := true } :
        SessionOutput)).changed = true ↔ ("hello" : String) ≠ "") :=
  C10_first_capture_changed c9Registry [] "agent-claude-live" "hello"
    { session_id := "agent-claude-live", content := "hello", changed := true }
    [("agent-claude-live", "hello")]
    (by decide) (by rfl)

/-- C2. For a parse result with a cursor marker (`arrow_navigable`),
`send_selection` emits exactly `|target − selected|` `Down` (positive
delta) or `Up` (negative delta) keystrokes followed by one `Enter`, and
never a literal-text keystroke; on the concrete marker pane,
`send_selection(id, 2)` emits exactly one `Down` then `Enter`. -/
theorem C2_arrow_selection_dispatch :
    (∀ (po : ParsedOutput) (n t : Nat),
      po.arrow_navigable = true →
      SessionManager.findTarget po.items n 0 = some t →
      SessionManager.send_selection po n none =
        some (List.replicate ((t : Int) - (po.selected_index : Int)).natAbs
            ({ keys := if ((t : Int) - (po.selected_index : Int)) > 0 then "Down" else "Up" } :
              KeyEvent)
          ++ [{ keys := "Enter" }]) ∧
      (∀ evs, SessionManager.send_selection po n none = some evs →
        ∀ e ∈ evs, e.literal = false)) ∧
    SessionManager.send_selection (parse paneArrow) 2 none =
      some [{ keys := "Down" }, { keys := "Enter" }] := by
  refine ⟨?_, by decide⟩
  intro po n t harrow hfind
  have heq : SessionManager.send_selection po n none =
      some (List.replicate ((t : Int) - (po.selected_index : Int)).natAbs
          ({ keys := if ((t : Int) - (po.selected_index : Int)) > 0 then "Down" else "Up" } :
            KeyEvent)
        ++ [{ keys := "Enter" }]) := by
    rw [SessionManager.send_selection, hfind]
    simp [harrow]
  refine ⟨heq, ?_⟩
  intro evs hevs e he
  rw [heq] at hevs
  injection hevs with hevs
  rw [← hevs] at he
  rcases List.mem_append.mp he with hrep | hone
  · rw [List.eq_of_mem_replicate hrep]
  · rw [List.mem_singleton.mp hone]

theorem C2_arrow_selection_dispatch_witness :
    SessionManager.send_selection (parse paneArrow) 2 none =
      some (List.replicate (((1 : Nat) : Int) - (((parse paneArrow).selected_index : Nat) : Int)).natAbs
          ({ keys := if (((1 : Nat) : Int) - (((parse paneArrow).selected_index : Nat) : Int)) > 0
              then "Down" else "Up" } : KeyEvent)
        ++ [{ keys := "Enter" }]) :=
  ((C2_arrow_selection_dispatch.1 (parse paneArrow) 2 1 (by decide) (by decide)).1)

theorem mark_dead_eq_map (m : List (String × SessionInfo)) (sid : String) (t : Nat) :
    mark_dead m sid t = m.map (fun p => (p.1, markDeadInfo sid t p.1 p.2)) := by
  rw [mark_dead]
  apply List.map_congr_left
  intro p _
  by_cases hc : p.1 = sid ∧ p.2.is_alive
  · simp [markDeadInfo, hc]
  · simp [markDeadInfo, hc]

theorem lookupBy_mapVal (m : List (String × SessionInfo))
    (g : String → SessionInfo → SessionInfo) (sid : String) :
    lookupBy (m.map (fun p => (p.1, g p.1 p.2))) sid = (lookupBy m sid).map (g sid) := by
  induction m with
  | nil => rfl
  | cons hd tl ih =>
    obtain ⟨k, v⟩ := hd
    by_cases hk : k = sid
    · subst hk
      simp [lookupBy]
    · simp [lookupBy, hk, ih]

theorem lookupBy_filterNe (m : List (String × SessionInfo)) (sid sid' : String) :
    lookupBy (m.filter (fun p => p.1 ≠ sid)) sid' =
      if sid' = sid then none else lookupBy m sid' := by
  induction m with
  | nil => simp [lookupBy]
  | cons hd tl ih =>
    obtain ⟨k, v⟩ := hd
    rw [List.filter_cons]
    by_cases hks : k = sid
    · rw [if_neg (by simp [hks]), ih]
      by_cases h2 : sid' = sid
      · simp [h2]
      · rw [if_neg h2, if_neg h2, lookupBy,
          if_neg (fun hc : k = sid' => h2 (by rw [← hc, hks]))]
    · rw [if_pos (by simp [hks])]
      by_cases hk' : k = sid'
      · rw [lookupBy, if_pos hk', if_neg (fun h2 => hks (hk'.trans h2)),
          lookupBy, if_pos hk']
      · rw [lookupBy, if_neg hk', ih]
        by_cases h2 : sid' = sid
        · rw [if_pos h2, if_pos h2]
        · rw [if_neg h2, if_neg h2, lookupBy, if_neg hk']

theorem putEntry_fresh {α : Type} (m : List (String × α)) (sid : String) (v : α)
    (h : SessionManager.lookupBy m sid = none) :
    putEntry m sid v = m ++ [(sid, v)] := by
  rw [putEntry, if_neg]
  intro hc
  obtain ⟨p, hp, hps⟩ := List.any_eq_true.mp hc
  exact ((lookupBy_eq_none m sid).mp h p hp) (by simpa using hps)

theorem lookupBy_append_single {α : Type} (m : List (String × α)) (sid sid' : String)
    (v : α) (h : SessionManager.lookupBy m sid' = none) :
    SessionManager.lookupBy (m ++ [(sid, v)]) sid' =
      if sid = sid' then some v else none := by
  induction m with
  | nil => simp [lookupBy]
  | cons hd tl ih =>
    obtain ⟨k, w⟩ := hd
    by_cases hk : k = sid'
    · simp [lookupBy, hk] at h
    · simp only [lookupBy, if_neg hk] at h
      simp only [List.cons_append, lookupBy, if_neg hk]
      exact ih h

theorem mem_mark_dead (m : List (String × SessionInfo)) (sid : String) (t : Nat)
    (p : String × SessionInfo) (hp : p ∈ mark_dead m sid t) :
    ∃ q ∈ m, p = (if q.1 = sid ∧ q.2.is_alive then
      (q.1, { q.2 with is_alive := false, ended_at := some t }) else q) := by
  rw [mark_dead] at hp
  obtain ⟨q, hq, hpq⟩ := List.mem_map.mp hp
  exact ⟨q, hq, hpq.symm⟩

theorem mark_dead_preserves (sessions : List (String × SessionInfo)) (sid : String)
    (t : Nat) (hInv : LivenessInv sessions) :
    LivenessInv (mark_dead sessions sid t) ∧
    (∀ s info, lookupBy sessions s = some info → info.is_alive = false →
      ∀ info', lookupBy (mark_dead sessions sid t) s = some info' →
        info'.is_alive = false) := by
  constructor
  · intro p hp
    obtain ⟨q, hq, heq⟩ := mem_mark_dead sessions sid t p hp
    by_cases hc : q.1 = sid ∧ q.2.is_alive
    · rw [if_pos hc] at heq
      subst heq
      exact ⟨fun _ => by simp, fun h => by simp at h⟩
    · rw [if_neg hc] at heq
      rw [heq]
      exact hInv q hq
  · intro s info hs hdead info' hs'
    rw [mark_dead_eq_map, lookupBy_mapVal, hs] at hs'
    simp only [Option.map_some'] at hs'
    injection hs' with hinfo
    rw [← hinfo, markDeadInfo, if_neg]
    · exact hdead
    · intro hc
      rw [hdead] at hc
      exact Bool.false_ne_true hc.2

theorem unchanged_preserves (sessions : List (String × SessionInfo))
    (hInv : LivenessInv sessions) :
    LivenessInv sessions ∧
    (∀ s info, lookupBy sessions s = some info → info.is_alive = false →
      ∀ info', lookupBy sessions s = some info' → info'.is_alive = false) := by
  refine ⟨hInv, fun s info hs hdead info' hs' => ?_⟩
  rw [hs] at hs'
  injection hs' with h
  rw [← h]
  exact hdead

theorem register_preserves (sessions : List (String × SessionInfo)) (sid : String)
    (v : SessionInfo) (hfresh : lookupBy sessions sid = none)
    (hInv : LivenessInv sessions)
    (hv : (v.is_alive = false → v.ended_at ≠ none) ∧ (v.is_alive = true → v.ended_at = none)) :
    LivenessInv (putEntry sessions sid v) ∧
    (∀ s info, lookupBy sessions s = some info → info.is_alive = false →
      ∀ info', lookupBy (putEntry sessions sid v) s = some info' →
        info'.is_alive = false) := by
  rw [putEntry_fresh _ _ _ hfresh]
  constructor
  · intro p hp
    rcases List.mem_append.mp hp with hin | hnew
    · exact hInv p hin
    · rw [List.mem_singleton.mp hnew]
      exact hv
  · intro s info hs hdead info' hs'
    rw [lookupBy_append_of_some _ _ _ _ hs] at hs'
    injection hs' with h
    rw [← h]
    exact hdead

/-- C4 (amended). Provided registrations target fresh ids and
`register_dead_session` receives a non-null `ended_at` (as the code's
callers do), every orchestrator operation preserves the liveness
invariant, and a registered dead session can never be observed alive
again. -/
theorem C4_liveness_invariant :
    ∀ (sessions : List (String × SessionInfo)) (op : SessionOp),
      LivenessInv sessions → WfOp sessions op →
      LivenessInv (stepOp sessions op) ∧
      (∀ sid info, lookupBy sessions sid = some info → info.is_alive = false →
        ∀ info', lookupBy (stepOp sessions op) sid = some info' →
          info'.is_alive = false) := by
  intro sessions op hInv hWf
  cases op with
  | create sid wd agent =>
    exact register_preserves sessions sid _ hWf hInv
      ⟨fun h => by simp at h, fun _ => rfl⟩
  | registerExisting sid wd agent =>
    exact register_preserves sessions sid _ hWf hInv
      ⟨fun h => by simp at h, fun _ => rfl⟩
  | registerDead sid wd agent ended =>
    exact register_preserves sessions sid _ hWf.1 hInv
      ⟨fun _ => hWf.2, fun h => by simp at h⟩
  | kill sid t =>
    cases hl : lookupBy sessions sid with
    | none => simpa [stepOp, hl] using unchanged_preserves sessions hInv
    | some info => simpa [stepOp, hl] using mark_dead_preserves sessions sid t hInv
  | recheck sid backendAlive t =>
    cases hl : lookupBy sessions sid with
    | none => simpa [stepOp, hl] using unchanged_preserves sessions hInv
    | some info =>
      by_cases hc : info.is_alive ∧ backendAlive = false
      · simpa [stepOp, hl, hc] using mark_dead_preserves sessions sid t hInv
      · simpa [stepOp, hl, hc] using unchanged_preserves sessions hInv
  | captureDead sid t =>
    simpa [stepOp] using mark_dead_preserves sessions sid t hInv
  | removeDead sid =>
    cases hl : lookupBy sessions sid with
    | none => simpa [stepOp, hl] using unchanged_preserves sessions hInv
    | some info =>
      by_cases hc : info.is_alive
      · simpa [stepOp, hl, hc] using unchanged_preserves sessions hInv
      · refine ⟨?_, ?_⟩
        · intro p hp
          simp only [stepOp, hl] at hp
          rw [if_neg hc] at hp
          exact hInv p (List.mem_filter.mp hp).1
        · intro s i hs hdead i' hs'
          simp only [stepOp, hl] at hs'
          rw [if_neg hc] at hs'
          rw [lookupBy_filterNe] at hs'
          by_cases h2 : s = sid
          · rw [if_pos h2] at hs'
            exact absurd hs' (by simp)
          · rw [if_neg h2, hs] at hs'
            injection hs' with h
            rw [← h]
            exact hdead

theorem C4_counterexample_liveness :
    (lookupBy (stepOp [] (SessionOp.registerDead "s" "/w" AgentType.claude none)) "s" =
      some { session_id := "s", agent_type := AgentType.claude, working_dir := "/w",
             is_alive := false, ended_at := none }) ∧
    ((lookupBy (stepOp (stepOp [] (SessionOp.registerDead "s" "/w" AgentType.claude (some 1)))
        (SessionOp.registerExisting "s" "/w" AgentType.claude)) "s").map
          (fun i => i.is_alive) = some true) := by
  constructor <;> rfl

theorem C4_liveness_invariant_witness :
    LivenessInv (stepOp [] (SessionOp.registerDead "s" "/w" AgentType.claude (some 7))) ∧
    (∀ sid info, lookupBy ([] : List (String × SessionInfo)) sid = some info →
      info.is_alive = false →
      ∀ info', lookupBy (stepOp [] (SessionOp.registerDead "s" "/w" AgentType.claude (some 7)))
        sid = some info' → info'.is_alive = false) :=
  C4_liveness_invariant [] (SessionOp.registerDead "s" "/w" AgentType.claude (some 7))
    (fun p hp => absurd hp (by simp)) ⟨rfl, by simp⟩

theorem soft_delete_allArchived (log : LogState) (s : String) :
    allArchived (soft_delete log s) s := by
  intro c hc hcs
  simp only [soft_delete] at hc
  obtain ⟨d, hd, hdc⟩ := List.mem_map.mp hc
  by_cases h : d.session_id = s
  · rw [if_pos h] at hdc
    rw [← hdc]
  · rw [if_neg h] at hdc
    rw [← hdc] at hcs
    exact absurd hcs h

theorem applyLogOp_allArchived (log : LogState) (s : String) (op : LogOp)
    (hop : ∀ t lines, op ≠ LogOp.append s t lines)
    (h : allArchived log s) : allArchived (applyLogOp log op) s := by
  cases op with
  | append sid t lines =>
    have hsid : sid ≠ s := by
      intro hc
      exact (hop t lines) (by rw [hc])
    intro c hc hcs
    rw [applyLogOp, AgentOutputLog.append] at hc
    by_cases hl : lines = []
    · rw [if_pos hl] at hc
      exact h c hc hcs
    · rw [if_neg hl] at hc
      simp only [List.mem_append, List.mem_singleton] at hc
      rcases hc with hold | hnew
      · exact h c hold hcs
      · rw [hnew] at hcs
        exact absurd hcs hsid
  | softDelete sid =>
    intro c hc hcs
    rw [applyLogOp, soft_delete] at hc
    simp only [List.mem_map] at hc
    obtain ⟨d, hd, hdc⟩ := hc
    by_cases hds : d.session_id = sid
    · rw [if_pos hds] at hdc
      rw [← hdc]
    · rw [if_neg hds] at hdc
      rw [← hdc] at hcs ⊢
      exact h d hd hcs

theorem applyLogOps_allArchived (s : String) (ops : List LogOp) :
    ∀ (log : LogState), (∀ op ∈ ops, ∀ t lines, op ≠ LogOp.append s t lines) →
      allArchived log s → allArchived (applyLogOps log ops) s := by
  induction ops with
  | nil => intro log _ h; exact h
  | cons op rest ih =>
    intro log hops h
    rw [applyLogOps, List.foldl_cons]
    exact ih (applyLogOp log op)
      (fun o ho => hops o (List.mem_cons_of_mem op ho))
      (applyLogOp_allArchived log s op (hops op (List.mem_cons_self op rest)) h)

theorem read_of_allArchived (log : LogState) (s : String) (before : Option Nat)
    (limit : Nat) (h : allArchived log s) :
    read log s before limit = { chunks := [], earliest_ts := none } := by
  have hfil : log.chunks.filter (fun c =>
      c.session_id = s && c.archived = false &&
        (match before with
         | some b => c.ts < b
         | none => true)) = [] := by
    rw [List.filter_eq_nil_iff]
    intro c hc
    simp only [Bool.and_eq_true, decide_eq_true_eq]
    intro hcond
    have := h c hc hcond.1.1
    rw [this] at hcond
    simp at hcond
  simp only [AgentOutputLog.read, hfil]
  simp [sortTsDesc]

theorem search_of_allArchived (log : LogState) (s : String) (matchQ : String → Bool)
    (limit : Nat) (h : allArchived log s) :
    search log matchQ (some s) limit = [] := by
  have hfil : log.chunks.filter (fun c =>
      matchQ c.content && c.archived = false &&
        (match (some s : Option String) with
         | some sid => c.session_id = sid
         | none => true)) = [] := by
    rw [List.filter_eq_nil_iff]
    intro c hc
    simp only [Bool.and_eq_true, decide_eq_true_eq]
    intro hcond
    have := h c hc hcond.2
    rw [this] at hcond
    simp at hcond
  simp only [AgentOutputLog.search, hfil, List.take_nil]

theorem mem_dedup_mem (x : String) : ∀ (l seen : List String),
    x ∈ dedup l seen → x ∈ l := by
  intro l
  induction l with
  | nil => intro seen h; simp [dedup] at h
  | cons a rest ih =>
    intro seen h
    rw [dedup] at h
    by_cases ha : a ∈ seen
    · rw [if_pos ha] at h
      exact List.mem_cons_of_mem a (ih _ h)
    · rw [if_neg ha] at h
      rcases List.mem_cons.mp h with hx | hx
      · rw [hx]; exact List.mem_cons_self a rest
      · exact List.mem_cons_of_mem a (ih _ hx)

theorem session_ids_of_allArchived (log : LogState) (s : String)
    (h : allArchived log s) : s ∉ session_ids log := by
  intro hs
  have hmem := mem_dedup_mem s _ [] hs
  obtain ⟨c, hc, hcs⟩ := List.mem_map.mp hmem
  have hcf := List.mem_filter.mp hc
  have harch := h c hcf.1 hcs
  have : c.archived = false := by simpa using hcf.2
  rw [this] at harch
  exact Bool.false_ne_true harch

/-- C8. After `soft_delete(s)`, and until a new append for `s`, `read`
returns no chunks for any pagination arguments, `search` scoped to `s`
returns no results for any query, and `session_ids()` omits `s`. -/
theorem C8_soft_delete_exclusion :
    ∀ (log : LogState) (s : String) (ops : List LogOp) (before : Option Nat)
      (limit : Nat) (matchQ : String → Bool) (slimit : Nat),
      (∀ op ∈ ops, ∀ t lines, op ≠ LogOp.append s t lines) →
      (read (applyLogOps (soft_delete log s) ops) s before limit).chunks = [] ∧
      (read (applyLogOps (soft_delete log s) ops) s before limit).earliest_ts = none ∧
      search (applyLogOps (soft_delete log s) ops) matchQ (some s) slimit = [] ∧
      s ∉ session_ids (applyLogOps (soft_delete log s) ops) := by
  intro log s ops before limit matchQ slimit hops
  have h := applyLogOps_allArchived s ops (soft_delete log s) hops
    (soft_delete_allArchived log s)
  have hr := read_of_allArchived _ s before limit h
  exact ⟨by rw [hr], by rw [hr], search_of_allArchived _ s matchQ slimit h,
    session_ids_of_allArchived _ s h⟩

theorem C8_soft_delete_exclusion_witness :
    (read (applyLogOps (soft_delete c8Log "s") [LogOp.append "u" 5 ["x"]]) "s" none 50).chunks
        = [] ∧
    (read (applyLogOps (soft_delete c8Log "s") [LogOp.append "u" 5 ["x"]]) "s" none 50).earliest_ts
        = none ∧
    search (applyLogOps (soft_delete c8Log "s") [LogOp.append "u" 5 ["x"]])
        (fun _ => true) (some "s") 20 = [] ∧
    "s" ∉ session_ids (applyLogOps (soft_delete c8Log "s") [LogOp.append "u" 5 ["x"]]) :=
  C8_soft_delete_exclusion c8Log "s" [LogOp.append "u" 5 ["x"]] none 50 (fun _ => true) 20
    (by
      intro op hop t lines
      rw [List.mem_singleton] at hop
      subst hop
      intro hc
      injection hc with h1 h2 h3
      exact absurd h1 (by decide))

theorem walkItems_eq_gapAll (n : Nat) :
    ∀ (ls : List Line) (i : Nat) (anchored : Bool) (found : Found)
      (po co : Option Nat),
      ls.length ≤ i + 1 →
      (po = none ∧ co = none ∨ ∃ p c, po = some p ∧ co = some c ∧ p = i + 1 + c) →
      walkItems n ls i anchored po found =
        walkItemsGap (fun _ => true) n ls i anchored co found := by
  intro ls
  induction ls with
  | nil =>
    intro i anchored found po co _ _
    rfl
  | cons l rest ih =>
    intro i anchored found po co hlen hrel
    have hrest : rest.length ≤ i := by
      simpa using hlen
    cases hm : itemMatch l with
    | none =>
      rw [walkItems, walkItemsGap, hm]
      cases rest with
      | nil => rfl
      | cons r rs =>
        have hi1 : 1 ≤ i := by
          simp at hrest
          omega
        apply ih
        · omega
        · rcases hrel with ⟨hpo, hco⟩ | ⟨p, c, hpo, hco, hpc⟩
          · left
            exact ⟨by rw [hpo], by simp [hco]⟩
          · right
            exact ⟨p, c + 1, by rw [hpo], by simp [hco], by omega⟩
    | some triple =>
      obtain ⟨num, rawLabel, marker⟩ := triple
      rw [walkItems, walkItemsGap, hm]
      dsimp only
      by_cases hanch : anchored = false ∧ i < n - 5
      · rw [if_pos hanch, if_pos hanch]
      · rw [if_neg hanch, if_neg hanch]
        rcases hrel with ⟨hpo, hco⟩ | ⟨p, c, hpo, hco, hpc⟩
        · rw [hpo, hco]
          dsimp only
          by_cases hone : num = 1
          · rw [if_pos hone, if_pos hone]
          · rw [if_neg hone, if_neg hone]
            cases rest with
            | nil => rfl
            | cons r rs =>
              have hi1 : 1 ≤ i := by
                simp at hrest
                omega
              apply ih
              · omega
              · right
                exact ⟨i, 0, rfl, rfl, by omega⟩
        · rw [hpo, hco]
          dsimp only
          have hgap : (p - i > 3) = (c + 1 > 3) := by
            rw [hpc]
            congr 1
            omega
          by_cases hg : p - i > 3
          · rw [if_pos hg, if_pos (by omega : c + 1 > 3)]
          · have hg2 : ¬ (c + 1 > 3) := by omega
            rw [if_neg hg, if_neg hg2]
            by_cases hone : num = 1
            · rw [if_pos hone, if_pos hone]
            · rw [if_neg hone, if_neg hone]
              cases rest with
              | nil => rfl
              | cons r rs =>
                have hi1 : 1 ≤ i := by
                  simp at hrest
                  omega
                apply ih
                · omega
                · right
                  exact ⟨i, 0, rfl, rfl, by omega⟩

/-- C5 (amended). The bottom-up walk terminates at a further-up item
exactly when it lies more than 3 raw lines above the previously found
item: every intervening line — blank lines, horizontal rules, footer
lines and description lines included — counts against the gap budget.
Formally, the source walk equals the budgeted walk in which every line
counts. -/
theorem C5_gap_rule_amended :
    ∀ (lines : List Line),
      collectFound lines = collectFoundGap (fun _ => true) lines := by
  intro lines
  rw [collectFound, collectFoundGap]
  apply walkItems_eq_gapAll
  · omega
  · left
    exact ⟨rfl, rfl⟩

/-- C5 counterexample: on a pane whose two items are separated by three
blank lines, the source walk differs from the spec-worded walk in which
blanks do not count (the source walk stops, so the pane parses to
PROMPT). -/
theorem C5_gap_rule_counterexample :
    collectFound (stripTailChrome (splitNl paneBlankGap.data)) ≠
      collectFoundGap specGapCounts (stripTailChrome (splitNl paneBlankGap.data)) ∧
    (parse paneBlankGap).state = UIState.prompt := by
  constructor <;> decide

theorem natRangeFrom_mem : ∀ (m s k : Nat), k ∈ natRangeFrom s m ↔ s ≤ k ∧ k < s + m := by
  intro m
  induction m with
  | zero =>
    intro s k
    simp [natRangeFrom]
  | succ mm ih =>
    intro s k
    rw [natRangeFrom]
    simp only [List.mem_cons, ih (s + 1) k]
    omega

theorem buildGo_lookup (F : Found) :
    ∀ (ks : List Nat) (acc : List (SelectionItem × Nat)) (sel : Nat) (hm : Bool)
      (r : List (SelectionItem × Nat) × Nat × Bool),
      buildGo F ks acc sel hm = some r → ∀ k ∈ ks, (foundLookup F k).isSome := by
  intro ks
  induction ks with
  | nil =>
    intro acc sel hm r _ k hk
    simp at hk
  | cons k0 rest ih =>
    intro acc sel hm r hgo k hk
    rw [buildGo] at hgo
    cases hl : foundLookup F k0 with
    | none =>
      rw [hl] at hgo
      exact absurd hgo (by simp)
    | some fi =>
      rw [hl] at hgo
      dsimp only at hgo
      rcases List.mem_cons.mp hk with hk0 | hks
      · rw [hk0, hl]
        rfl
      · by_cases hmk : fi.marker
        · rw [if_pos hmk] at hgo
          exact ih _ _ _ _ hgo k hks
        · rw [if_neg hmk] at hgo
          exact ih _ _ _ _ hgo k hks

theorem buildGo_shape (F : Found) :
    ∀ (ks : List Nat) (acc : List (SelectionItem × Nat)) (sel : Nat) (hm : Bool)
      (L : List (SelectionItem × Nat)) (s : Nat) (b : Bool),
      buildGo F ks acc sel hm = some (L, s, b) → ∃ t, L = acc.reverse ++ t := by
  intro ks
  induction ks with
  | nil =>
    intro acc sel hm L s b hgo
    rw [buildGo] at hgo
    injection hgo with hgo
    injection hgo with h1 h2
    refine ⟨[], ?_⟩
    rw [List.append_nil]
    exact h1.symm
  | cons k0 rest ih =>
    intro acc sel hm L s b hgo
    rw [buildGo] at hgo
    cases hl : foundLookup F k0 with
    | none =>
      rw [hl] at hgo
      exact absurd hgo (by simp)
    | some fi =>
      rw [hl] at hgo
      dsimp only at hgo
      have hstep : ∀ (sel' : Nat) (hm' : Bool),
          buildGo F rest ((({ number := k0, label := fi.label } : SelectionItem),
            fi.lineIdx) :: acc) sel' hm' = some (L, s, b) →
          ∃ t, L = acc.reverse ++ t := by
        intro sel' hm' hgo'
        obtain ⟨t, ht⟩ := ih _ _ _ _ _ _ hgo'
        rw [List.reverse_cons, List.append_assoc] at ht
        exact ⟨_, ht⟩
      by_cases hmk : fi.marker
      · rw [if_pos hmk] at hgo
        exact hstep _ _ hgo
      · rw [if_neg hmk] at hgo
        exact hstep _ _ hgo

theorem foundHas_iff_lookup (F : Found) (k : Nat) :
    foundHas F k = true ↔ (foundLookup F k).isSome := by
  simp [foundHas, foundLookup, List.any_eq_true, List.find?_isSome]

theorem foldl_max_ge (F : Found) :
    ∀ (acc : Nat), acc ≤ F.foldl (fun m p => Nat.max m p.1) acc ∧
      ∀ p ∈ F, p.1 ≤ F.foldl (fun m p => Nat.max m p.1) acc := by
  induction F with
  | nil =>
    intro acc
    exact ⟨Nat.le_refl acc, by simp⟩
  | cons q rest ih =>
    intro acc
    rw [List.foldl_cons]
    obtain ⟨hacc, hmem⟩ := ih (Nat.max acc q.1)
    constructor
    · exact Nat.le_trans (Nat.le_max_left acc q.1) hacc
    · intro p hp
      rcases List.mem_cons.mp hp with hq | hrest
      · rw [hq]
        exact Nat.le_trans (Nat.le_max_right acc q.1) hacc
      · exact hmem p hrest

theorem foundHas_le_max (F : Found) (k : Nat) (h : foundHas F k = true) :
    k ≤ foundMax F := by
  obtain ⟨p, hp, hpk⟩ := List.any_eq_true.mp h
  have := (foldl_max_ge F 0).2 p hp
  rw [foundMax]
  have hk : p.1 = k := by simpa using hpk
  omega

theorem tryWorking_state (lines : List Line) (p : ParsedOutput)
    (h : tryWorking lines = some p) : p.state = UIState.working := by
  rw [tryWorking] at h
  split at h
  · injection h with h
    rw [← h]
  · split at h
    · injection h with h
      rw [← h]
    · exact absurd h (by simp)

theorem trySelection_state (lines : List Line) (p : ParsedOutput)
    (h : trySelection lines = some p) : p.state = UIState.selection := by
  rw [trySelection] at h
  split at h
  · exact absurd h (by simp)
  · cases hc : collectFound lines with
    | none =>
      rw [hc] at h
      exact absurd h (by simp)
    | some F =>
      rw [hc] at h
      dsimp only at h
      split at h
      · exact absurd h (by simp)
      · cases hb : buildGo F (natRangeFrom 1 (foundMax F)) [] 0 false with
        | none =>
          rw [hb] at h
          exact absurd h (by simp)
        | some trip =>
          obtain ⟨itemsL, sel, hm⟩ := trip
          rw [hb] at h
          dsimp only at h
          split at h
          · exact absurd h (by simp)
          · injection h with h
            rw [← h]

theorem trySelection_some (lines : List Line) (p : ParsedOutput)
    (h : trySelection lines = some p) :
    ∃ (F : Found) (itemsL : List (SelectionItem × Nat)) (sel : Nat) (hm : Bool),
      collectFound lines = some F ∧
      foundHas F 1 = true ∧ 2 ≤ F.length ∧
      buildGo F (natRangeFrom 1 (foundMax F)) [] 0 false = some (itemsL, sel, hm) ∧
      (lines.any footerMatch = true ∨ codeQuestion lines (firstLineIdx itemsL) = true) := by
  rw [trySelection] at h
  split at h
  · exact absurd h (by simp)
  · cases hc : collectFound lines with
    | none =>
      rw [hc] at h
      exact absurd h (by simp)
    | some F =>
      rw [hc] at h
      dsimp only at h
      split at h
      · exact absurd h (by simp)
      · rename_i hguard
        cases hb : buildGo F (natRangeFrom 1 (foundMax F)) [] 0 false with
        | none =>
          rw [hb] at h
          exact absurd h (by simp)
        | some trip =>
          obtain ⟨itemsL, sel, hm⟩ := trip
          rw [hb] at h
          dsimp only at h
          split at h
          · exact absurd h (by simp)
          · rename_i hgate
            push_neg at hguard
            refine ⟨F, itemsL, sel, hm, rfl, ?_, ?_, hb, ?_⟩
            · cases hf : foundHas F 1 with
              | false => exact absurd hf hguard.1
              | true => rfl
            · omega
            · by_cases hfoot : lines.any footerMatch = true
              · exact Or.inl hfoot
              · right
                cases hq : codeQuestion lines (firstLineIdx itemsL) with
                | false =>
                  exact absurd ⟨Bool.eq_false_iff.mpr (fun hc => hfoot hc), hq⟩ hgate
                | true => rfl

theorem parse_state_cases (raw : String) :
    (∃ w, tryWorking (stripTailChrome (splitNl raw.data)) = some w ∧ parse raw = w) ∨
    (tryWorking (stripTailChrome (splitNl raw.data)) = none ∧
      ∃ p, trySelection (stripTailChrome (splitNl raw.data)) = some p ∧ parse raw = p) ∨
    (tryWorking (stripTailChrome (splitNl raw.data)) = none ∧
      trySelection (stripTailChrome (splitNl raw.data)) = none ∧
      parse raw = { state := UIState.prompt }) := by
  rw [parse, parseLines]
  cases htw : tryWorking (stripTailChrome (splitNl raw.data)) with
  | some w => exact Or.inl ⟨w, rfl, rfl⟩
  | none =>
    cases hts : trySelection (stripTailChrome (splitNl raw.data)) with
    | some p => exact Or.inr (Or.inl ⟨rfl, p, rfl, rfl⟩)
    | none => exact Or.inr (Or.inr ⟨rfl, rfl, rfl⟩)

/-- C3 (amended). `parse` yields SELECTION only when the bottom-up walk
collected item number 1, collected at least two entries, and collected
every number in `1..max` (an extra entry numbered `0` may also have been
collected); a single numbered item plus a footer parses to PROMPT. -/
theorem C3_selection_validity :
    (∀ raw : String, (parse raw).state = UIState.selection →
      ∃ F, collectFound (stripTailChrome (splitNl raw.data)) = some F ∧
        foundHas F 1 = true ∧ 2 ≤ F.length ∧
        (∀ k, 1 ≤ k → k ≤ foundMax F → foundHas F k = true)) ∧
    (parse paneSingleItem).state = UIState.prompt := by
  refine ⟨?_, by decide⟩
  intro raw hsel
  rcases parse_state_cases raw with ⟨w, hw, hpw⟩ | ⟨_, p, hts, hpp⟩ | ⟨_, _, hpr⟩
  · rw [hpw] at hsel
    rw [tryWorking_state _ _ hw] at hsel
    exact absurd hsel (by simp)
  · obtain ⟨F, itemsL, sel, hm, hc, h1, h2, hb, _⟩ := trySelection_some _ p hts
    refine ⟨F, hc, h1, h2, ?_⟩
    intro k hk1 hk2
    have hmem : k ∈ natRangeFrom 1 (foundMax F) :=
      (natRangeFrom_mem (foundMax F) 1 k).mpr ⟨hk1, by omega⟩
    exact (foundHas_iff_lookup F k).mpr (buildGo_lookup F _ _ _ _ _ hb k hmem)
  · rw [hpr] at hsel
    exact absurd hsel (by simp)

/-- C3 counterexample: a pane whose walk also collects an item numbered
`0` still parses to SELECTION, so the collected numbers are not the
contiguous range `1..max`. -/
theorem C3_selection_validity_counterexample :
    (parse paneZeroItem).state = UIState.selection ∧
    foundHas ((collectFound (stripTailChrome (splitNl paneZeroItem.data))).getD []) 0
      = true ∧
    foundMax ((collectFound (stripTailChrome (splitNl paneZeroItem.data))).getD []) = 1 := by
  refine ⟨by decide, by decide, by decide⟩

theorem C3_selection_validity_witness :
    ∃ F, collectFound (stripTailChrome (splitNl paneTwoItems.data)) = some F ∧
      foundHas F 1 = true ∧ 2 ≤ F.length ∧
      (∀ k, 1 ≤ k → k ≤ foundMax F → foundHas F k = true) :=
  C3_selection_validity.1 paneTwoItems (by decide)

theorem codeQuestion_eq_take2 (lines : List Line) (fi : Nat) :
    codeQuestion lines fi =
      ((((List.range fi).reverse).map (fun k => lines.getD k [])).take 2).any
        (fun l => stripLine l ≠ [] && endsQuestionColon (stripLine l)) := by
  rw [codeQuestion]
  by_cases h0 : fi = 0
  · subst h0
    rfl
  · by_cases h1 : fi = 1
    · subst h1
      rfl
    · rw [if_neg h0, if_neg h1]
      obtain ⟨m, rfl⟩ : ∃ m, fi = m + 2 := ⟨fi - 2, by omega⟩
      have hrev : (List.range (m + 2)).reverse = (m + 1) :: m :: (List.range m).reverse := by
        rw [List.range_succ, List.range_succ]
        simp
      rw [hrev]
      have e1 : m + 2 - 1 = m + 1 := by omega
      have e2 : m + 2 - 2 = m := by omega
      rw [e1, e2]
      simp [List.any_cons]

theorem take2_any_filter (xs : List Line)
    (h : (xs.take 2).any
      (fun l => stripLine l ≠ [] && endsQuestionColon (stripLine l)) = true) :
    ((xs.filter (fun l => !(blankLine l))).take 2).any
      (fun l => endsQuestionColon (stripLine l)) = true := by
  match xs with
  | [] => simp at h
  | [a] =>
    simp only [List.take, List.any_cons, List.any_nil, Bool.or_false,
      Bool.and_eq_true, decide_eq_true_eq] at h
    have hba : blankLine a = false := by
      rw [blankLine]
      simpa using h.1
    simp [List.filter_cons, hba, h.2]
  | a :: b :: rest =>
    have htake : (a :: b :: rest).take 2 = [a, b] := rfl
    rw [htake] at h
    simp only [List.any_cons, List.any_nil, Bool.or_false, Bool.or_eq_true,
      Bool.and_eq_true, decide_eq_true_eq] at h
    rcases h with ⟨hne, hq⟩ | ⟨hne, hq⟩
    · have hba : blankLine a = false := by
        rw [blankLine]
        simpa using hne
      simp [List.filter_cons, hba, hq]
    · have hbb : blankLine b = false := by
        rw [blankLine]
        simpa using hne
      by_cases hba : blankLine a = true
      · simp [List.filter_cons, hba, hbb, hq]
      · rw [Bool.not_eq_true] at hba
        simp [List.filter_cons, hba, hbb, hq]

theorem codeQuestion_implies_claimQuestion (lines : List Line) (fi : Nat)
    (h : codeQuestion lines fi = true) : claimQuestion lines fi = true := by
  rw [claimQuestion]
  exact take2_any_filter _ (by rw [← codeQuestion_eq_take2]; exact h)

theorem firstItemIdx_of_buildGo (lines : List Line) (F : Found)
    (itemsL : List (SelectionItem × Nat)) (sel : Nat) (hm : Bool)
    (hc : collectFound lines = some F)
    (h1 : foundHas F 1 = true)
    (hb : buildGo F (natRangeFrom 1 (foundMax F)) [] 0 false = some (itemsL, sel, hm)) :
    firstItemIdx lines = some (firstLineIdx itemsL) := by
  have hmax : 1 ≤ foundMax F := foundHas_le_max F 1 h1
  obtain ⟨m, hme⟩ : ∃ m, foundMax F = m + 1 := ⟨foundMax F - 1, by omega⟩
  rw [hme, natRangeFrom, buildGo] at hb
  cases hl : foundLookup F 1 with
  | none =>
    rw [hl] at hb
    exact absurd hb (by simp)
  | some fi =>
    rw [hl] at hb
    dsimp only at hb
    have hshape : ∃ t, itemsL =
        (({ number := 1, label := fi.label } : SelectionItem), fi.lineIdx) :: t := by
      by_cases hmk : fi.marker
      · rw [if_pos hmk] at hb
        obtain ⟨t, ht⟩ := buildGo_shape F _ _ _ _ _ _ _ hb
        exact ⟨t, by simpa using ht⟩
      · rw [if_neg hmk] at hb
        obtain ⟨t, ht⟩ := buildGo_shape F _ _ _ _ _ _ _ hb
        exact ⟨t, by simpa using ht⟩
    obtain ⟨t, ht⟩ := hshape
    rw [firstItemIdx, hc]
    simp only [Option.some_bind, hl, Option.map_some']
    rw [ht]
    rfl

theorem any_of_stripTailChrome (lines0 : List Line) (pred : Line → Bool)
    (h : (stripTailChrome lines0).any pred = true) : lines0.any pred = true := by
  rw [List.any_eq_true] at h ⊢
  obtain ⟨l, hl, hp⟩ := h
  refine ⟨l, ?_, hp⟩
  rw [stripTailChrome] at hl
  have h1 := List.mem_reverse.mp hl
  have h2 := (List.dropWhile_sublist _).mem h1
  exact List.mem_reverse.mp h2

/-- C6. The selection gate: a pane parses to SELECTION only when the full
captured text contains a footer line or there is a question header within
the two non-blank lines above the first item; with the detector not in
the WORKING state, a pane falls through to SELECTION or PROMPT only. -/
theorem C6_selection_gating :
    ∀ raw : String,
      ((parse raw).state = UIState.selection →
        (splitNl raw.data).any footerMatch = true ∨
        (∃ fi, firstItemIdx (stripTailChrome (splitNl raw.data)) = some fi ∧
          claimQuestion (stripTailChrome (splitNl raw.data)) fi = true)) ∧
      (tryWorking (stripTailChrome (splitNl raw.data)) = none →
        (parse raw).state = UIState.selection ∨ (parse raw).state = UIState.prompt) := by
  intro raw
  constructor
  · intro hsel
    rcases parse_state_cases raw with ⟨w, hw, hpw⟩ | ⟨_, p, hts, hpp⟩ | ⟨_, _, hpr⟩
    · rw [hpw] at hsel
      rw [tryWorking_state _ _ hw] at hsel
      exact absurd hsel (by simp)
    · obtain ⟨F, itemsL, sel, hm, hc, h1, h2, hb, hgate⟩ := trySelection_some _ p hts
      rcases hgate with hfoot | hq
      · exact Or.inl (any_of_stripTailChrome _ _ hfoot)
      · right
        refine ⟨firstLineIdx itemsL, ?_, ?_⟩
        · exact firstItemIdx_of_buildGo _ F itemsL sel hm hc h1 hb
        · exact codeQuestion_implies_claimQuestion _ _ hq
    · rw [hpr] at hsel
      exact absurd hsel (by simp)
  · intro hw
    rcases parse_state_cases raw with ⟨w, hw2, hpw⟩ | ⟨_, p, hts, hpp⟩ | ⟨_, _, hpr⟩
    · rw [hw] at hw2
      exact absurd hw2 (by simp)
    · rw [hpp]
      exact Or.inl (trySelection_state _ _ hts)
    · rw [hpr]
      exact Or.inr rfl

theorem C6_selection_gating_witness :
    ((splitNl paneTwoItems.data).any footerMatch = true ∨
      (∃ fi, firstItemIdx (stripTailChrome (splitNl paneTwoItems.data)) = some fi ∧
        claimQuestion (stripTailChrome (splitNl paneTwoItems.data)) fi = true)) ∧
    ((parse paneTwoItems).state = UIState.selection ∨
      (parse paneTwoItems).state = UIState.prompt) :=
  ⟨(C6_selection_gating paneTwoItems).1 (by decide),
   (C6_selection_gating paneTwoItems).2 (by decide)⟩


end Agentdeck
